import Mathlib

/-!
Shallow embedding of the market-data route of the sentiment-dashboard
repository (src/app/api/market/route.ts).  The route keeps two in-process
caches (quotes and candle history), admission-gates requests by a global
minimum interval, refills stale quotes in chunks of ten with a pause
between chunks, refills stale histories serially with a bounded retry on
rate-limit errors, and assembles a total response from cache contents.

Timestamps are naturals (milliseconds).  Prices are integers: none of the
verified properties computes on price values.  Upstream calls are
parameterised by oracles so that success and failure scenarios can be
analysed.  JavaScript subtraction `now - t` only ever feeds comparisons
`< 2000` and `> TTL`; truncated natural subtraction gives the same
branch outcome in every case, including clock regression.
-/

namespace MarketRoute

/-- Price/change pair stored in QUOTE_CACHE under `data`. -/
structure QuoteData where
  price : Int
  changePercent : Int
  deriving DecidableEq, Repr

/-- One QUOTE_CACHE slot: `{ data, timestamp }`. -/
structure QuoteEntry where
  data : QuoteData
  timestamp : Nat
  deriving DecidableEq, Repr

/-- One point of normalised history: `{ value: c.close }`. -/
structure HistoryPoint where
  value : Int
  deriving DecidableEq, Repr

/-- One HISTORY_CACHE slot: `{ data, timestamp }`. -/
structure HistoryEntry where
  data : List HistoryPoint
  timestamp : Nat
  deriving DecidableEq, Repr

/-- QUOTE_CACHE: a keyed store, absent key modelled as none. -/
def QuoteCache : Type := String → Option QuoteEntry

/-- HISTORY_CACHE: a keyed store, absent key modelled as none. -/
def HistoryCache : Type := String → Option HistoryEntry

def emptyQuoteCache : QuoteCache := fun _ => none

def emptyHistoryCache : HistoryCache := fun _ => none

/-- `QUOTE_CACHE[sym] = entry`. -/
def putQuote (c : QuoteCache) (sym : String) (e : QuoteEntry) : QuoteCache :=
  fun s => if s = sym then some e else c s

/-- `HISTORY_CACHE[sym] = entry`. -/
def putHistory (c : HistoryCache) (sym : String) (e : HistoryEntry) : HistoryCache :=
  fun s => if s = sym then some e else c s

def QUOTE_TTL : Nat := 30 * 1000

def HISTORY_TTL : Nat := 15 * 60 * 1000

def MIN_REQUEST_INTERVAL : Nat := 2000

/-- One element of the array returned by the batched quote call. -/
structure QuoteRow where
  symbol : String
  regularMarketPrice : Int
  regularMarketChangePercent : Int
  deriving DecidableEq, Repr

/-- One upstream candle: only its `close` field is consumed. -/
structure Candle where
  close : Int
  deriving DecidableEq, Repr

/-- Shape of a successful chart response: a wrapped object whose `quotes`
field is an array, a bare array of candles, or anything else. -/
inductive ChartPayload where
  | wrapped (quotes : List Candle)
  | bare (candles : List Candle)
  | malformed
  deriving DecidableEq, Repr

/-- A thrown upstream error carrying its `message`. -/
structure ChartErr where
  message : String
  deriving DecidableEq, Repr

/-- `pat` is a prefix of `hay` (character lists). -/
def charsStart : List Char → List Char → Bool
  | [], _ => true
  | _ :: _, [] => false
  | p :: ps, c :: cs => p == c && charsStart ps cs

/-- `pat` occurs inside `hay` (character lists). -/
def charsContains : List Char → List Char → Bool
  | [], pat => pat.isEmpty
  | c :: cs, pat => charsStart pat (c :: cs) || charsContains cs pat

/-- JavaScript `s.includes(pat)`. -/
def strIncludes (s pat : String) : Bool :=
  charsContains s.toList pat.toList

/-- The rate-limit classifier of the catch block:
message includes Too Many Requests, or includes 429. -/
def is429 (e : ChartErr) : Bool :=
  strIncludes e.message "Too Many Requests" || strIncludes e.message "429"

/-- The candle extraction: candles stay empty unless the result is an
object whose quotes field is an array. -/
def extractQuotes : ChartPayload → List Candle
  | .wrapped qs => qs
  | .bare _ => []
  | .malformed => []

/-- Full normalisation of one chart response:
candles mapped to historyData values. -/
def normalizeChart (p : ChartPayload) : List HistoryPoint :=
  (extractQuotes p).map (fun c => { value := c.close })

/-- Outcome of one fetchWithRetry run: whether it returned true, the
history cache afterwards, how many attempts ran, and the backoff waits
performed between attempts (milliseconds, in order). -/
structure RetryResult where
  success : Bool
  cache : HistoryCache
  attempts : Nat
  delays : List Nat

/-- The attempt loop of fetchWithRetry.  The chart oracle maps the attempt
number to the outcome of that attempt.  Fuel is the number of loop iterations
still available (retries + 1 - attempt); the fuel-exhausted case is the
final return false after the loop. -/
def fetchRetryGo (oracle : Nat → Except ChartErr ChartPayload) (retries : Nat)
    (sym : String) (now : Nat) : Nat → Nat → HistoryCache → RetryResult
  | 0, attempt, cache => ⟨false, cache, attempt - 1, []⟩
  | fuel + 1, attempt, cache =>
    match oracle attempt with
    | .ok result =>
      ⟨true, putHistory cache sym ⟨normalizeChart result, now⟩, attempt, []⟩
    | .error e =>
      if is429 e && decide (attempt < retries) then
        let r := fetchRetryGo oracle retries sym now fuel (attempt + 1) cache
        ⟨r.success, r.cache, r.attempts, 2000 * attempt :: r.delays⟩
      else
        ⟨false, cache, attempt, []⟩

/-- fetchWithRetry(sym) at its default retries = 3, starting at attempt 1. -/
def fetchWithRetry (oracle : Nat → Except ChartErr ChartPayload) (sym : String)
    (now : Nat) (cache : HistoryCache) : RetryResult :=
  fetchRetryGo oracle 3 sym now 3 1 cache

/-- Outcome of the batched quote loop: the quote cache afterwards, the
chunk payloads passed to the upstream quote call in order, and how many
inter-chunk 500ms pauses were performed. -/
structure BatchResult where
  cache : QuoteCache
  calls : List (List String)
  pauses : Nat

/-- Cache writes performed for one successful chunk response: each row is
stored under its own symbol with fetchedAt = now. -/
def writeQuotes (cache : QuoteCache) (rows : List QuoteRow) (now : Nat) : QuoteCache :=
  rows.foldl
    (fun c q => putQuote c q.symbol ⟨⟨q.regularMarketPrice, q.regularMarketChangePercent⟩, now⟩)
    cache

/-- The chunk loop of the quote section, already split into its slices.
A throwing chunk call propagates to the catch around the whole loop, so
later chunks never run; the pause runs only when further chunks remain. -/
def runChunksList (oracle : List String → Except Unit (List QuoteRow)) (now : Nat) :
    List (List String) → QuoteCache → BatchResult
  | [], cache => ⟨cache, [], 0⟩
  | b :: rest, cache =>
    match oracle b with
    | .error _ => ⟨cache, [b], 0⟩
    | .ok rows =>
      let c := writeQuotes cache rows now
      if rest.isEmpty then ⟨c, [b], 0⟩
      else
        let out := runChunksList oracle now rest c
        ⟨out.cache, b :: out.calls, out.pauses + 1⟩

/-- Slicing quotesToFetch by batchSize = 10: slice(i, i + 10) for
i = 0, 10, 20, ...  Fuel-driven so that it reduces definitionally. -/
def chunksGo : Nat → List String → List (List String)
  | 0, _ => []
  | _, [] => []
  | fuel + 1, s :: ss => (s :: ss).take 10 :: chunksGo fuel ((s :: ss).drop 10)

def chunksOf10 (syms : List String) : List (List String) :=
  chunksGo syms.length syms

/-- The whole quote section: chunked sequential fetch of the stale set. -/
def runQuoteFetch (oracle : List String → Except Unit (List QuoteRow)) (now : Nat)
    (syms : List String) (cache : QuoteCache) : BatchResult :=
  runChunksList oracle now (chunksOf10 syms) cache

/-- The serial history loop: fetchWithRetry per symbol in order.  The
oracle maps symbol and attempt number to the outcome of that call.  Returns
the final cache and the symbols for which a fetch cycle was started. -/
def runHistories (oracle : String → Nat → Except ChartErr ChartPayload) (now : Nat) :
    List String → HistoryCache → HistoryCache × List String
  | [], cache => (cache, [])
  | s :: rest, cache =>
    let r := fetchWithRetry (oracle s) s now cache
    let out := runHistories oracle now rest r.cache
    (out.1, s :: out.2)

/-- One assembled response entry: spread of the cached quote data
(or the zero default) plus the cached history (or the empty list). -/
structure MarketEntry where
  price : Int
  changePercent : Int
  history : List HistoryPoint
  deriving DecidableEq, Repr

def assembleEntry (qc : QuoteCache) (hc : HistoryCache) (sym : String) : MarketEntry :=
  { price := match qc sym with
      | some e => e.data.price
      | none => 0
    changePercent := match qc sym with
      | some e => e.data.changePercent
      | none => 0
    history := match hc sym with
      | some e => e.data
      | none => [] }

/-- marketData built by the forEach over the requested symbols. -/
def assemble (qc : QuoteCache) (hc : HistoryCache) (syms : List String) :
    List (String × MarketEntry) :=
  syms.map (fun s => (s, assembleEntry qc hc s))

/-- The symbols field of the request body: absent/falsy, truthy but not
an array (for example a string), or an array. -/
inductive SymbolsField where
  | missing
  | notArray (value : String)
  | array (syms : List String)
  deriving DecidableEq, Repr

/-- The module-level mutable state of the route. -/
structure ServerState where
  quoteCache : QuoteCache
  historyCache : HistoryCache
  lastRequestTime : Nat

/-- The JSON response: a mapping, or the generic status-500 failure body. -/
inductive ApiResponse where
  | ok (entries : List (String × MarketEntry))
  | err

/-- Record of upstream calls made while serving one request. -/
structure UpstreamLog where
  quoteCalls : List (List String)
  chartCalls : List String

/-- The staleness filter of the quote section. -/
def quotesToFetch (qc : QuoteCache) (now : Nat) (syms : List String) : List String :=
  syms.filter (fun sym =>
    match qc sym with
    | none => true
    | some cached => decide (now - cached.timestamp > QUOTE_TTL))

/-- The staleness filter of the history section. -/
def historiesToFetch (hc : HistoryCache) (now : Nat) (syms : List String) : List String :=
  syms.filter (fun sym =>
    match hc sym with
    | none => true
    | some cached => decide (now - cached.timestamp > HISTORY_TTL))

/-- The POST handler.  The degraded branch serves straight from cache and
leaves all state untouched; on a truthy non-array symbols value its
optional-chained forEach call throws, which the outer catch turns into
the generic failure response.  The accepted branch updates the gate
timestamp, validates, fetches stale quotes then stale histories, and
assembles the response from the resulting caches. -/
def handlePOST (qOracle : List String → Except Unit (List QuoteRow))
    (cOracle : String → Nat → Except ChartErr ChartPayload)
    (now : Nat) (st : ServerState) (symbols : SymbolsField) :
    ServerState × ApiResponse × UpstreamLog :=
  if now - st.lastRequestTime < MIN_REQUEST_INTERVAL then
    match symbols with
    | .missing => (st, .ok [], ⟨[], []⟩)
    | .notArray _ => (st, .err, ⟨[], []⟩)
    | .array syms => (st, .ok (assemble st.quoteCache st.historyCache syms), ⟨[], []⟩)
  else
    let st1 : ServerState := { st with lastRequestTime := now }
    match symbols with
    | .missing => (st1, .ok [], ⟨[], []⟩)
    | .notArray _ => (st1, .ok [], ⟨[], []⟩)
    | .array [] => (st1, .ok [], ⟨[], []⟩)
    | .array (s0 :: srest) =>
      let syms := s0 :: srest
      let qres := runQuoteFetch qOracle now (quotesToFetch st1.quoteCache now syms) st1.quoteCache
      let hsyms := historiesToFetch st1.historyCache now syms
      let hres := runHistories cOracle now hsyms st1.historyCache
      let st2 : ServerState :=
        { st1 with quoteCache := qres.cache, historyCache := hres.1 }
      (st2, .ok (assemble qres.cache hres.1 syms), ⟨qres.calls, hres.2⟩)

/-! ### C6: chart response normalization -/

/-- C6 counterexample: a bare sequence of one candle normalizes to the
empty sequence, while the same sequence wrapped under the quotes field
normalizes to its closing value — the two forms do not reduce to the
same internal sequence. -/
theorem C6_counterexample :
    normalizeChart (ChartPayload.bare [⟨5⟩])
      ≠ normalizeChart (ChartPayload.wrapped [⟨5⟩]) := by
  decide

/-- C6 amended: normalization accepts only the wrapped form, reducing the
array under the quotes field to the ordered sequence of closing values;
every other shape, a bare candle sequence included, reduces to the empty
sequence. -/
theorem C6_amended_normalization :
    (∀ qs : List Candle,
      normalizeChart (ChartPayload.wrapped qs) = qs.map (fun c => ⟨c.close⟩))
    ∧ (∀ cs : List Candle, normalizeChart (ChartPayload.bare cs) = [])
    ∧ normalizeChart ChartPayload.malformed = [] :=
  ⟨fun _ => rfl, fun _ => rfl, rfl⟩

/-! ### C10: successful fetch with non-array quotes field -/

/-- C10: when the chart call of the first attempt succeeds but the result does
not carry an array-valued quotes field, the fetch reports success and the
history cache entry for the symbol is overwritten with an empty candle
sequence stamped fetchedAt = now, replacing any previous entry. -/
theorem C10_nonarray_quotes_overwrite :
    ∀ (cO : Nat → Except ChartErr ChartPayload) (sym : String) (now : Nat)
      (cache : HistoryCache) (p : ChartPayload),
      cO 1 = .ok p → (∀ qs, p ≠ ChartPayload.wrapped qs) →
      (fetchWithRetry cO sym now cache).success = true
      ∧ (fetchWithRetry cO sym now cache).cache sym = some ⟨[], now⟩ := by
  intro cO sym now cache p h1 hnw
  have hq : extractQuotes p = [] := by
    cases p with
    | wrapped qs => exact absurd rfl (hnw qs)
    | bare cs => rfl
    | malformed => rfl
  unfold fetchWithRetry fetchRetryGo
  rw [h1]
  simp [putHistory, normalizeChart, hq]

/-- C10 witness: a malformed success on a symbol whose cache already holds
a non-empty history at an older timestamp overwrites it with the empty
fresh-stamped entry. -/
theorem C10_witness :
    (fetchWithRetry (fun _ => .ok ChartPayload.malformed) "A" 7
      (putHistory emptyHistoryCache "A" ⟨[⟨1⟩], 3⟩)).success = true
    ∧ (fetchWithRetry (fun _ => .ok ChartPayload.malformed) "A" 7
      (putHistory emptyHistoryCache "A" ⟨[⟨1⟩], 3⟩)).cache "A" = some ⟨[], 7⟩ :=
  C10_nonarray_quotes_overwrite (fun _ => .ok ChartPayload.malformed) "A" 7
    (putHistory emptyHistoryCache "A" ⟨[⟨1⟩], 3⟩) ChartPayload.malformed rfl
    (fun _ h => ChartPayload.noConfusion h)

/-! ### C4: non-retryable failure -/

/-- C4: a first-attempt error that is not classified as a rate limit ends
the fetch after exactly one attempt, with no backoff delay, no success,
and the history cache exactly as before. -/
theorem C4_nonretryable_single_attempt :
    ∀ (cO : Nat → Except ChartErr ChartPayload) (sym : String) (now : Nat)
      (cache : HistoryCache) (e : ChartErr),
      cO 1 = .error e → is429 e = false →
      (fetchWithRetry cO sym now cache).attempts = 1
      ∧ (fetchWithRetry cO sym now cache).delays = []
      ∧ (fetchWithRetry cO sym now cache).success = false
      ∧ (fetchWithRetry cO sym now cache).cache = cache := by
  intro cO sym now cache e h1 h429
  unfold fetchWithRetry fetchRetryGo
  rw [h1]
  simp [h429]

/-- C4 witness at a concrete generic error. -/
theorem C4_witness :
    (fetchWithRetry (fun _ => .error ⟨"boom"⟩) "A" 5 emptyHistoryCache).attempts = 1
    ∧ (fetchWithRetry (fun _ => .error ⟨"boom"⟩) "A" 5 emptyHistoryCache).delays = []
    ∧ (fetchWithRetry (fun _ => .error ⟨"boom"⟩) "A" 5 emptyHistoryCache).success = false
    ∧ (fetchWithRetry (fun _ => .error ⟨"boom"⟩) "A" 5 emptyHistoryCache).cache
        = emptyHistoryCache :=
  C4_nonretryable_single_attempt (fun _ => .error ⟨"boom"⟩) "A" 5 emptyHistoryCache
    ⟨"boom"⟩ rfl (by decide)

/-! ### C3: rate-limited retry cycle -/

/-- C3: under persistent rate-limit errors the fetch performs exactly
3 attempts with waits 2000ms and 4000ms between them (2000ms times the
attempt number), reports failure, and leaves the history cache exactly
as it was before the cycle. -/
theorem C3_rate_limit_retry :
    ∀ (cO : Nat → Except ChartErr ChartPayload) (sym : String) (now : Nat)
      (cache : HistoryCache),
      (∀ n, 1 ≤ n → n ≤ 3 → ∃ e, cO n = .error e ∧ is429 e = true) →
      (fetchWithRetry cO sym now cache).attempts = 3
      ∧ (fetchWithRetry cO sym now cache).delays = [2000 * 1, 2000 * 2]
      ∧ (fetchWithRetry cO sym now cache).success = false
      ∧ (fetchWithRetry cO sym now cache).cache = cache := by
  intro cO sym now cache h
  obtain ⟨e1, he1, hr1⟩ := h 1 (by decide) (by decide)
  obtain ⟨e2, he2, hr2⟩ := h 2 (by decide) (by decide)
  obtain ⟨e3, he3, hr3⟩ := h 3 (by decide) (by decide)
  simp [fetchWithRetry, fetchRetryGo, he1, he2, he3, hr1, hr2, hr3]

/-- C3 witness: an oracle always throwing an HTTP 429 message. -/
theorem C3_witness :
    (fetchWithRetry (fun _ => .error ⟨"HTTP 429"⟩) "A" 9 emptyHistoryCache).attempts = 3
    ∧ (fetchWithRetry (fun _ => .error ⟨"HTTP 429"⟩) "A" 9 emptyHistoryCache).delays
        = [2000 * 1, 2000 * 2]
    ∧ (fetchWithRetry (fun _ => .error ⟨"HTTP 429"⟩) "A" 9 emptyHistoryCache).success = false
    ∧ (fetchWithRetry (fun _ => .error ⟨"HTTP 429"⟩) "A" 9 emptyHistoryCache).cache
        = emptyHistoryCache :=
  C3_rate_limit_retry (fun _ => .error ⟨"HTTP 429"⟩) "A" 9 emptyHistoryCache
    (fun _ _ _ => ⟨⟨"HTTP 429"⟩, rfl, by decide⟩)

/-! ### Cache retention lemmas -/

/-- A retry loop that ends in failure returns the history cache it was
given, unchanged. -/
theorem fetchRetryGo_fail_cache (cO : Nat → Except ChartErr ChartPayload)
    (retries : Nat) (sym : String) (now : Nat) :
    ∀ fuel attempt cache,
      (fetchRetryGo cO retries sym now fuel attempt cache).success = false →
      (fetchRetryGo cO retries sym now fuel attempt cache).cache = cache := by
  intro fuel
  induction fuel with
  | zero => intro attempt cache _; rfl
  | succ n ih =>
    intro attempt cache hs
    simp only [fetchRetryGo] at hs ⊢
    cases hco : cO attempt with
    | ok p => rw [hco] at hs; simp at hs
    | error e =>
      rw [hco] at hs
      dsimp only at hs ⊢
      by_cases hc : (is429 e && decide (attempt < retries)) = true
      · rw [if_pos hc] at hs ⊢
        exact ih (attempt + 1) cache hs
      · rw [if_neg hc] at hs ⊢

/-- The retry loop never touches history cache slots of other symbols. -/
theorem fetchRetryGo_other_sym (cO : Nat → Except ChartErr ChartPayload)
    (retries : Nat) (sym : String) (now : Nat) :
    ∀ fuel attempt cache s, s ≠ sym →
      (fetchRetryGo cO retries sym now fuel attempt cache).cache s = cache s := by
  intro fuel
  induction fuel with
  | zero => intro attempt cache s _; rfl
  | succ n ih =>
    intro attempt cache s hne
    simp only [fetchRetryGo]
    cases hco : cO attempt with
    | ok p => simp [putHistory, hne]
    | error e =>
      dsimp only
      by_cases hc : (is429 e && decide (attempt < retries)) = true
      · rw [if_pos hc]
        exact ih (attempt + 1) cache s hne
      · rw [if_neg hc]

/-- Every quote-cache slot after one chunk write is either untouched or a
fresh entry stamped with the timestamp of the current cycle. -/
theorem writeQuotes_spec (now : Nat) :
    ∀ (rows : List QuoteRow) (cache : QuoteCache) (sym : String),
      writeQuotes cache rows now sym = cache sym
      ∨ ∃ d, writeQuotes cache rows now sym = some ⟨d, now⟩ := by
  intro rows
  induction rows with
  | nil => intro cache sym; exact Or.inl rfl
  | cons q qs ih =>
    intro cache sym
    have hstep : writeQuotes cache (q :: qs) now
        = writeQuotes
            (putQuote cache q.symbol ⟨⟨q.regularMarketPrice, q.regularMarketChangePercent⟩, now⟩)
            qs now := rfl
    rw [hstep]
    rcases ih (putQuote cache q.symbol
        ⟨⟨q.regularMarketPrice, q.regularMarketChangePercent⟩, now⟩) sym with h | ⟨d, hd⟩
    · by_cases hsq : sym = q.symbol
      · exact Or.inr ⟨⟨q.regularMarketPrice, q.regularMarketChangePercent⟩,
          h.trans (by simp [putQuote, hsq])⟩
      · exact Or.inl (h.trans (by simp [putQuote, hsq]))
    · exact Or.inr ⟨d, hd⟩

/-- Every quote-cache slot after the chunk loop is either untouched or a
fresh entry stamped with the timestamp of the current cycle. -/
theorem runChunksList_cache_spec (qO : List String → Except Unit (List QuoteRow)) (now : Nat) :
    ∀ (chunks : List (List String)) (cache : QuoteCache) (sym : String),
      (runChunksList qO now chunks cache).cache sym = cache sym
      ∨ ∃ d, (runChunksList qO now chunks cache).cache sym = some ⟨d, now⟩ := by
  intro chunks
  induction chunks with
  | nil => intro cache sym; exact Or.inl rfl
  | cons b rest ih =>
    intro cache sym
    simp only [runChunksList]
    cases hb : qO b with
    | error u => exact Or.inl rfl
    | ok rows =>
      dsimp only
      by_cases hre : rest.isEmpty = true
      · rw [if_pos hre]
        exact writeQuotes_spec now rows cache sym
      · rw [if_neg hre]
        rcases ih (writeQuotes cache rows now) sym with h | ⟨d, hd⟩
        · rcases writeQuotes_spec now rows cache sym with h2 | ⟨d, hd2⟩
          · exact Or.inl (h.trans h2)
          · exact Or.inr ⟨d, h.trans hd2⟩
        · exact Or.inr ⟨d, hd⟩

/-! ### C5: last-known-good retention -/

/-- C5: a failed history cycle returns the whole history cache unchanged;
a history cycle never touches the slot of another symbol; and every quote
cache slot after the chunk loop is either exactly its previous state or
a fresh entry written by a successful chunk with fetchedAt = now — no
failure path deletes or modifies an existing entry. -/
theorem C5_last_known_good :
    (∀ (cO : Nat → Except ChartErr ChartPayload) (sym : String) (now : Nat)
        (cache : HistoryCache),
      (fetchWithRetry cO sym now cache).success = false →
      (fetchWithRetry cO sym now cache).cache = cache)
    ∧ (∀ (cO : Nat → Except ChartErr ChartPayload) (sym : String) (now : Nat)
        (cache : HistoryCache) (s : String), s ≠ sym →
      (fetchWithRetry cO sym now cache).cache s = cache s)
    ∧ (∀ (qO : List String → Except Unit (List QuoteRow)) (now : Nat)
        (chunks : List (List String)) (cache : QuoteCache) (sym : String),
      (runChunksList qO now chunks cache).cache sym = cache sym
      ∨ ∃ d, (runChunksList qO now chunks cache).cache sym = some ⟨d, now⟩) :=
  ⟨fun cO sym now cache hs => fetchRetryGo_fail_cache cO 3 sym now 3 1 cache hs,
   fun cO sym now cache s hne => fetchRetryGo_other_sym cO 3 sym now 3 1 cache s hne,
   fun qO now chunks cache sym => runChunksList_cache_spec qO now chunks cache sym⟩

/-- C5 witness: a concrete failing history fetch preserves the cache, a
concrete fetch leaves the slot of another symbol alone, and a concrete failed
chunk leaves a quote slot in its previous state. -/
theorem C5_witness :
    (fetchWithRetry (fun _ => .error ⟨"nope"⟩) "A" 4 emptyHistoryCache).cache
        = emptyHistoryCache
    ∧ (fetchWithRetry (fun _ => .error ⟨"nope"⟩) "A" 4 emptyHistoryCache).cache "B"
        = emptyHistoryCache "B"
    ∧ ((runChunksList (fun _ => .error ()) 4 [["A"]] emptyQuoteCache).cache "A"
          = emptyQuoteCache "A"
        ∨ ∃ d, (runChunksList (fun _ => .error ()) 4 [["A"]] emptyQuoteCache).cache "A"
          = some ⟨d, 4⟩) :=
  ⟨C5_last_known_good.1 (fun _ => .error ⟨"nope"⟩) "A" 4 emptyHistoryCache (by decide),
   C5_last_known_good.2.1 (fun _ => .error ⟨"nope"⟩) "A" 4 emptyHistoryCache "B" (by decide),
   C5_last_known_good.2.2 (fun _ => .error ()) 4 [["A"]] emptyQuoteCache "A"⟩

/-! ### Chunking lemmas -/

/-- chunksGo does not depend on its fuel, as long as the fuel covers the
list length. -/
theorem chunksGo_fuel :
    ∀ (f1 f2 : Nat) (syms : List String), syms.length ≤ f1 → syms.length ≤ f2 →
      chunksGo f1 syms = chunksGo f2 syms := by
  intro f1
  induction f1 with
  | zero =>
    intro f2 syms h1 _
    have : syms = [] := List.eq_nil_of_length_eq_zero (Nat.le_zero.mp h1)
    subst this
    cases f2 <;> rfl
  | succ n ih =>
    intro f2 syms h1 h2
    cases syms with
    | nil => cases f2 <;> rfl
    | cons s ss =>
      cases f2 with
      | zero => simp at h2
      | succ m =>
        simp only [chunksGo]
        have hd : ((s :: ss).drop 10).length ≤ n := by
          simp only [List.length_drop, List.length_cons] at *
          omega
        have hd2 : ((s :: ss).drop 10).length ≤ m := by
          simp only [List.length_drop, List.length_cons] at *
          omega
        rw [ih n ((s :: ss).drop 10) hd hd]
        rw [ih m ((s :: ss).drop 10) hd hd2]

/-- Unfolding step of the slicing: a non-empty list contributes its first
ten elements as one chunk, followed by the chunks of the rest. -/
theorem chunksOf10_cons (syms : List String) (h : syms ≠ []) :
    chunksOf10 syms = syms.take 10 :: chunksOf10 (syms.drop 10) := by
  obtain ⟨s, ss, rfl⟩ := List.exists_cons_of_ne_nil h
  show chunksGo (ss.length + 1) (s :: ss) = (s :: ss).take 10 :: chunksOf10 ((s :: ss).drop 10)
  simp only [chunksGo, chunksOf10]
  rw [chunksGo_fuel ss.length ((s :: ss).drop 10).length ((s :: ss).drop 10)
    (by simp [List.length_drop]) (le_refl _)]

/-- Calls of the chunk loop are always among the given chunks. -/
theorem runChunksList_calls_subset (qO : List String → Except Unit (List QuoteRow)) (now : Nat) :
    ∀ (chunks : List (List String)) (cache : QuoteCache) (b : List String),
      b ∈ (runChunksList qO now chunks cache).calls → b ∈ chunks := by
  intro chunks
  induction chunks with
  | nil => intro cache b h; exact absurd h (List.not_mem_nil b)
  | cons c rest ih =>
    intro cache b h
    simp only [runChunksList] at h
    cases hc : qO c with
    | error u =>
      rw [hc] at h
      simp only [List.mem_singleton] at h
      exact h ▸ List.mem_cons_self c rest
    | ok rows =>
      rw [hc] at h
      dsimp only at h
      by_cases hre : rest.isEmpty = true
      · rw [if_pos hre] at h
        simp only [List.mem_singleton] at h
        exact h ▸ List.mem_cons_self c rest
      · rw [if_neg hre] at h
        rcases List.mem_cons.mp h with h | h
        · exact h ▸ List.mem_cons_self c rest
        · exact List.mem_cons_of_mem c (ih (writeQuotes cache rows now) b h)

/-- Membership through the slicing: an element of a produced chunk is an
element of the sliced list. -/
theorem chunksGo_mem_sound :
    ∀ (fuel : Nat) (syms : List String) (b : List String) (s : String),
      b ∈ chunksGo fuel syms → s ∈ b → s ∈ syms := by
  intro fuel
  induction fuel with
  | zero => intro syms b s hb _; simp [chunksGo] at hb
  | succ n ih =>
    intro syms b s hb hs
    cases syms with
    | nil => simp [chunksGo] at hb
    | cons x xs =>
      simp only [chunksGo] at hb
      rcases List.mem_cons.mp hb with h | h
      · exact List.take_subset 10 (x :: xs) (h ▸ hs)
      · exact List.drop_subset 10 (x :: xs) (ih ((x :: xs).drop 10) b s h hs)

/-- A set of 25 stale symbols is sliced into exactly three chunks of
sizes 10, 10, 5. -/
theorem chunksOf10_sizes_25 :
    ∀ syms : List String, syms.length = 25 →
      (chunksOf10 syms).map List.length = [10, 10, 5] := by
  intro syms h
  have h1 : syms ≠ [] := by
    intro he
    rw [he] at h
    simp at h
  rw [chunksOf10_cons syms h1]
  have h2 : syms.drop 10 ≠ [] := by
    intro he
    have := congrArg List.length he
    simp [List.length_drop, h] at this
  rw [chunksOf10_cons _ h2]
  have h3 : (syms.drop 10).drop 10 ≠ [] := by
    intro he
    have := congrArg List.length he
    simp [List.length_drop, h] at this
  rw [chunksOf10_cons _ h3]
  have h4 : ((syms.drop 10).drop 10).drop 10 = [] := by
    apply List.eq_nil_of_length_eq_zero
    simp [List.length_drop, h]
  rw [h4]
  simp [chunksOf10, chunksGo, List.length_take, List.length_drop, h]

/-- When every chunk call succeeds, the loop issues exactly one call per
chunk, in order, and pauses once between consecutive chunks. -/
theorem runChunksList_ok_run (qO : List String → Except Unit (List QuoteRow)) (now : Nat) :
    ∀ (chunks : List (List String)) (cache : QuoteCache),
      (∀ b ∈ chunks, ∃ rows, qO b = .ok rows) →
      (runChunksList qO now chunks cache).calls = chunks
      ∧ (runChunksList qO now chunks cache).pauses = chunks.length - 1 := by
  intro chunks
  induction chunks with
  | nil => intro cache _; exact ⟨rfl, rfl⟩
  | cons b rest ih =>
    intro cache h
    obtain ⟨rows, hb⟩ := h b (List.mem_cons_self b rest)
    simp only [runChunksList]
    rw [hb]
    dsimp only
    by_cases hre : rest.isEmpty = true
    · have hr : rest = [] := List.isEmpty_iff.mp hre
      subst hr
      rw [if_pos hre]
      exact ⟨rfl, rfl⟩
    · rw [if_neg hre]
      obtain ⟨h1, h2⟩ :=
        ih (writeQuotes cache rows now) (fun c hc => h c (List.mem_cons_of_mem b hc))
      have hlen : rest.length ≠ 0 := by
        intro h0
        exact hre (List.isEmpty_iff.mpr (List.eq_nil_of_length_eq_zero h0))
      refine ⟨by simp [h1], ?_⟩
      simp only [h2, List.length_cons]
      omega

/-- When the chunks before position k all succeed and the chunk at
position k throws, the loop stops there: the calls are exactly the
successful prefix plus the failing chunk, and the cache is exactly what
running the successful prefix alone produces — the failing chunk and all
later chunks write nothing. -/
theorem runChunksList_error_prefix (qO : List String → Except Unit (List QuoteRow)) (now : Nat) :
    ∀ (pre : List (List String)) (b : List String) (post : List (List String)),
      (∀ c ∈ pre, ∃ rows, qO c = .ok rows) → qO b = .error () →
      ∀ cache,
        (runChunksList qO now (pre ++ b :: post) cache).calls = pre ++ [b]
        ∧ (runChunksList qO now (pre ++ b :: post) cache).cache
            = (runChunksList qO now pre cache).cache := by
  intro pre
  induction pre with
  | nil =>
    intro b post _ hb cache
    simp only [List.nil_append, runChunksList]
    rw [hb]
    exact ⟨rfl, rfl⟩
  | cons c pre ih =>
    intro b post hok hb cache
    obtain ⟨rows, hc⟩ := hok c (List.mem_cons_self c pre)
    simp only [List.cons_append, runChunksList]
    rw [hc]
    dsimp only
    have hne : (pre ++ b :: post).isEmpty = false := by
      cases pre <;> rfl
    rw [if_neg (by simp [hne])]
    obtain ⟨h1, h2⟩ :=
      ih b post (fun d hd => hok d (List.mem_cons_of_mem c hd)) hb (writeQuotes cache rows now)
    by_cases hp : pre.isEmpty = true
    · have hpe : pre = [] := List.isEmpty_iff.mp hp
      subst hpe
      rw [if_pos hp]
      constructor
      · simp [List.append_eq, runChunksList, hb]
      · simp [List.append_eq, runChunksList, hb]
    · rw [if_neg hp]
      constructor
      · simp [List.append_eq, h1]
      · simp [List.append_eq, h2]

/-! ### C2: batched quote fetch -/

/-- C2 counterexample: eleven stale symbols form two chunks, but when the
first chunk call throws, only one upstream call is issued — the
remaining chunk does not execute, and no cache write happens. -/
theorem C2_counterexample :
    (chunksOf10 ["a", "b", "c", "d", "e", "f", "g", "h", "i", "j", "k"]).length = 2
    ∧ (runQuoteFetch (fun _ => .error ()) 0
        ["a", "b", "c", "d", "e", "f", "g", "h", "i", "j", "k"] emptyQuoteCache).calls
      = [["a", "b", "c", "d", "e", "f", "g", "h", "i", "j"]] := by
  constructor
  · decide
  · decide

/-- C2 amended: the stale set is sliced into chunks of ten (25 symbols
give three chunks of sizes 10, 10, 5); when every chunk call succeeds
the loop issues one call per chunk in order with one 500ms pause between
consecutive chunks; when a chunk call fails, the symbols of that chunk retain
their previous cache state, but the exception aborts the whole loop:
the remaining chunks are not executed and the cache stays exactly as the
successful prefix left it. -/
theorem C2_amended_batching :
    (∀ syms : List String, syms.length = 25 →
        (chunksOf10 syms).map List.length = [10, 10, 5])
    ∧ (∀ (qO : List String → Except Unit (List QuoteRow)) (now : Nat)
        (chunks : List (List String)) (cache : QuoteCache),
        (∀ b ∈ chunks, ∃ rows, qO b = .ok rows) →
        (runChunksList qO now chunks cache).calls = chunks
        ∧ (runChunksList qO now chunks cache).pauses = chunks.length - 1)
    ∧ (∀ (qO : List String → Except Unit (List QuoteRow)) (now : Nat)
        (pre : List (List String)) (b : List String) (post : List (List String))
        (cache : QuoteCache),
        (∀ c ∈ pre, ∃ rows, qO c = .ok rows) → qO b = .error () →
        (runChunksList qO now (pre ++ b :: post) cache).calls = pre ++ [b]
        ∧ (runChunksList qO now (pre ++ b :: post) cache).cache
            = (runChunksList qO now pre cache).cache) :=
  ⟨chunksOf10_sizes_25,
   fun qO now chunks cache h => runChunksList_ok_run qO now chunks cache h,
   fun qO now pre b post cache hok hb => runChunksList_error_prefix qO now pre b post hok hb cache⟩

/-- C2 witness: a concrete 25-symbol list slices into 10, 10, 5; an
always-succeeding oracle on two chunks calls both with one pause; a
failure on the middle of three chunks stops the loop after it, leaving
the cache exactly as the first chunk left it. -/
theorem C2_witness :
    ((chunksOf10 ["s01", "s02", "s03", "s04", "s05", "s06", "s07", "s08", "s09", "s10",
        "s11", "s12", "s13", "s14", "s15", "s16", "s17", "s18", "s19", "s20",
        "s21", "s22", "s23", "s24", "s25"]).map List.length = [10, 10, 5])
    ∧ ((runChunksList (fun _ => .ok []) 3 [["a"], ["b"]] emptyQuoteCache).calls = [["a"], ["b"]]
        ∧ (runChunksList (fun _ => .ok []) 3 [["a"], ["b"]] emptyQuoteCache).pauses
            = ([["a"], ["b"]] : List (List String)).length - 1)
    ∧ ((runChunksList (fun c => if c = ["b"] then .error () else .ok []) 3
          ([["a"]] ++ ["b"] :: [["c"]]) emptyQuoteCache).calls = [["a"]] ++ [["b"]]
        ∧ (runChunksList (fun c => if c = ["b"] then .error () else .ok []) 3
            ([["a"]] ++ ["b"] :: [["c"]]) emptyQuoteCache).cache
          = (runChunksList (fun c => if c = ["b"] then .error () else .ok []) 3
              [["a"]] emptyQuoteCache).cache) :=
  ⟨C2_amended_batching.1
      ["s01", "s02", "s03", "s04", "s05", "s06", "s07", "s08", "s09", "s10",
        "s11", "s12", "s13", "s14", "s15", "s16", "s17", "s18", "s19", "s20",
        "s21", "s22", "s23", "s24", "s25"] (by decide),
   C2_amended_batching.2.1 (fun _ => .ok []) 3 [["a"], ["b"]] emptyQuoteCache
      (fun b _ => ⟨[], rfl⟩),
   C2_amended_batching.2.2 (fun c => if c = ["b"] then .error () else .ok []) 3
      [["a"]] ["b"] [["c"]] emptyQuoteCache
      (by
        intro c hcm
        refine ⟨[], ?_⟩
        have : c = ["a"] := List.mem_singleton.mp hcm
        subst this
        rfl)
      rfl⟩

/-! ### Assembler and staleness lemmas -/

/-- The keys of the assembled mapping are exactly the requested symbols. -/
theorem assemble_keys (qc : QuoteCache) (hc : HistoryCache) (syms : List String) :
    (assemble qc hc syms).map Prod.fst = syms := by
  simp only [assemble, List.map_map]
  have h : (Prod.fst ∘ fun s : String => (s, assembleEntry qc hc s)) = id := rfl
  rw [h, List.map_id]

/-- A symbol with no quote entry assembles to the zero default. -/
theorem assembleEntry_quote_none (qc : QuoteCache) (hc : HistoryCache) (s : String)
    (h : qc s = none) :
    (assembleEntry qc hc s).price = 0 ∧ (assembleEntry qc hc s).changePercent = 0 := by
  constructor <;> simp [assembleEntry, h]

/-- A symbol with no history entry assembles to the empty sequence. -/
theorem assembleEntry_history_none (qc : QuoteCache) (hc : HistoryCache) (s : String)
    (h : hc s = none) : (assembleEntry qc hc s).history = [] := by
  simp [assembleEntry, h]

/-- The serial history loop starts one fetch cycle per stale symbol, in
order. -/
theorem runHistories_calls (cO : String → Nat → Except ChartErr ChartPayload) (now : Nat) :
    ∀ (l : List String) (cache : HistoryCache), (runHistories cO now l cache).2 = l := by
  intro l
  induction l with
  | nil => intro cache; rfl
  | cons s rest ih =>
    intro cache
    simp only [runHistories]
    rw [ih]

/-- A quote entry within its TTL keeps its symbol out of the stale set. -/
theorem fresh_quote_not_fetched (qc : QuoteCache) (now : Nat) (syms : List String)
    (sym : String) (e : QuoteEntry) (he : qc sym = some e)
    (hfresh : now - e.timestamp ≤ QUOTE_TTL) :
    sym ∉ quotesToFetch qc now syms := by
  intro hmem
  have h := (List.mem_filter.mp hmem).2
  rw [he] at h
  simp at h
  omega

/-- A history entry within its TTL keeps its symbol out of the stale set. -/
theorem fresh_history_not_fetched (hc : HistoryCache) (now : Nat) (syms : List String)
    (sym : String) (e : HistoryEntry) (he : hc sym = some e)
    (hfresh : now - e.timestamp ≤ HISTORY_TTL) :
    sym ∉ historiesToFetch hc now syms := by
  intro hmem
  have h := (List.mem_filter.mp hmem).2
  rw [he] at h
  simp at h
  omega

/-! ### C1: total response assembly -/

/-- C1: an accepted request with a non-empty symbols array is answered
with the mapping assembled from the post-fetch caches; its key sequence
is exactly the requested symbols; a symbol with no quote entry assembles
to price 0 and changePercent 0 and a symbol with no history entry to the
empty history — assembly is total and never fails per symbol. -/
theorem C1_response_total (qO : List String → Except Unit (List QuoteRow))
    (cO : String → Nat → Except ChartErr ChartPayload)
    (now : Nat) (st : ServerState) (syms : List String)
    (hacc : ¬ now - st.lastRequestTime < MIN_REQUEST_INTERVAL) (hne : syms ≠ []) :
    (handlePOST qO cO now st (.array syms)).2.1
      = .ok (assemble (handlePOST qO cO now st (.array syms)).1.quoteCache
          (handlePOST qO cO now st (.array syms)).1.historyCache syms)
    ∧ (assemble (handlePOST qO cO now st (.array syms)).1.quoteCache
        (handlePOST qO cO now st (.array syms)).1.historyCache syms).map Prod.fst = syms
    ∧ (∀ s, (handlePOST qO cO now st (.array syms)).1.quoteCache s = none →
        (assembleEntry (handlePOST qO cO now st (.array syms)).1.quoteCache
          (handlePOST qO cO now st (.array syms)).1.historyCache s).price = 0
        ∧ (assembleEntry (handlePOST qO cO now st (.array syms)).1.quoteCache
          (handlePOST qO cO now st (.array syms)).1.historyCache s).changePercent = 0)
    ∧ (∀ s, (handlePOST qO cO now st (.array syms)).1.historyCache s = none →
        (assembleEntry (handlePOST qO cO now st (.array syms)).1.quoteCache
          (handlePOST qO cO now st (.array syms)).1.historyCache s).history = []) := by
  refine ⟨?_, assemble_keys _ _ _,
    fun s hs => assembleEntry_quote_none _ _ s hs,
    fun s hs => assembleEntry_history_none _ _ s hs⟩
  cases syms with
  | nil => exact absurd rfl hne
  | cons s0 srest =>
    simp only [handlePOST]
    rw [if_neg hacc]

/-- C1 witness: a first-ever accepted request for one symbol with empty
caches and failing upstreams still answers with the assembled mapping,
and an uncached symbol assembles to the zero defaults. -/
theorem C1_witness :
    (handlePOST (fun _ => .error ()) (fun _ _ => .error ⟨"x"⟩) 5000
        ⟨emptyQuoteCache, emptyHistoryCache, 0⟩ (.array ["AAPL"])).2.1
      = .ok (assemble
          (handlePOST (fun _ => .error ()) (fun _ _ => .error ⟨"x"⟩) 5000
            ⟨emptyQuoteCache, emptyHistoryCache, 0⟩ (.array ["AAPL"])).1.quoteCache
          (handlePOST (fun _ => .error ()) (fun _ _ => .error ⟨"x"⟩) 5000
            ⟨emptyQuoteCache, emptyHistoryCache, 0⟩ (.array ["AAPL"])).1.historyCache
          ["AAPL"])
    ∧ ((assembleEntry
          (handlePOST (fun _ => .error ()) (fun _ _ => .error ⟨"x"⟩) 5000
            ⟨emptyQuoteCache, emptyHistoryCache, 0⟩ (.array ["AAPL"])).1.quoteCache
          (handlePOST (fun _ => .error ()) (fun _ _ => .error ⟨"x"⟩) 5000
            ⟨emptyQuoteCache, emptyHistoryCache, 0⟩ (.array ["AAPL"])).1.historyCache
          "AAPL").price = 0
        ∧ (assembleEntry
          (handlePOST (fun _ => .error ()) (fun _ _ => .error ⟨"x"⟩) 5000
            ⟨emptyQuoteCache, emptyHistoryCache, 0⟩ (.array ["AAPL"])).1.quoteCache
          (handlePOST (fun _ => .error ()) (fun _ _ => .error ⟨"x"⟩) 5000
            ⟨emptyQuoteCache, emptyHistoryCache, 0⟩ (.array ["AAPL"])).1.historyCache
          "AAPL").changePercent = 0) :=
  ⟨(C1_response_total (fun _ => .error ()) (fun _ _ => .error ⟨"x"⟩) 5000
      ⟨emptyQuoteCache, emptyHistoryCache, 0⟩ ["AAPL"] (by decide) (by decide)).1,
   (C1_response_total (fun _ => .error ()) (fun _ _ => .error ⟨"x"⟩) 5000
      ⟨emptyQuoteCache, emptyHistoryCache, 0⟩ ["AAPL"] (by decide) (by decide)).2.2.1
     "AAPL" (by decide)⟩

/-! ### C7: empty, missing, or non-array symbols -/

/-- C7 counterexample: a request with a truthy non-array symbols value
arriving inside the two-second gate window takes the degraded branch,
where calling forEach on the non-array throws, so the endpoint answers
with the generic failure response instead of the empty mapping. -/
theorem C7_counterexample :
    (handlePOST (fun _ => .error ()) (fun _ _ => .error ⟨"x"⟩) 1000
      ⟨emptyQuoteCache, emptyHistoryCache, 0⟩ (.notArray "AAPL")).2.1 = ApiResponse.err := rfl

/-- C7 amended: an accepted request with missing, non-array, or empty
symbols is answered with the empty mapping; a degraded request with
missing or empty-array symbols is likewise answered with the empty
mapping, but a degraded request with a truthy non-array symbols value is
answered with the generic failure response. -/
theorem C7_amended_malformed (qO : List String → Except Unit (List QuoteRow))
    (cO : String → Nat → Except ChartErr ChartPayload) (now : Nat) (st : ServerState) :
    (¬ now - st.lastRequestTime < MIN_REQUEST_INTERVAL →
      (handlePOST qO cO now st .missing).2.1 = .ok []
      ∧ (∀ v, (handlePOST qO cO now st (.notArray v)).2.1 = .ok [])
      ∧ (handlePOST qO cO now st (.array [])).2.1 = .ok [])
    ∧ (now - st.lastRequestTime < MIN_REQUEST_INTERVAL →
      (handlePOST qO cO now st .missing).2.1 = .ok []
      ∧ (handlePOST qO cO now st (.array [])).2.1 = .ok []
      ∧ (∀ v, (handlePOST qO cO now st (.notArray v)).2.1 = .err)) := by
  constructor
  · intro h
    refine ⟨?_, fun v => ?_, ?_⟩ <;>
      · simp only [handlePOST]
        rw [if_neg h]
  · intro h
    refine ⟨?_, ?_, fun v => ?_⟩
    · simp only [handlePOST]
      rw [if_pos h]
    · simp only [handlePOST]
      rw [if_pos h]
      rfl
    · simp only [handlePOST]
      rw [if_pos h]

/-- C7 witness: both gate situations at concrete states. -/
theorem C7_witness :
    ((handlePOST (fun _ => .error ()) (fun _ _ => .error ⟨"x"⟩) 9000
        ⟨emptyQuoteCache, emptyHistoryCache, 0⟩ .missing).2.1 = .ok []
      ∧ (∀ v, (handlePOST (fun _ => .error ()) (fun _ _ => .error ⟨"x"⟩) 9000
          ⟨emptyQuoteCache, emptyHistoryCache, 0⟩ (.notArray v)).2.1 = .ok [])
      ∧ (handlePOST (fun _ => .error ()) (fun _ _ => .error ⟨"x"⟩) 9000
          ⟨emptyQuoteCache, emptyHistoryCache, 0⟩ (.array [])).2.1 = .ok [])
    ∧ ((handlePOST (fun _ => .error ()) (fun _ _ => .error ⟨"x"⟩) 500
          ⟨emptyQuoteCache, emptyHistoryCache, 0⟩ .missing).2.1 = .ok []
      ∧ (handlePOST (fun _ => .error ()) (fun _ _ => .error ⟨"x"⟩) 500
          ⟨emptyQuoteCache, emptyHistoryCache, 0⟩ (.array [])).2.1 = .ok []
      ∧ (∀ v, (handlePOST (fun _ => .error ()) (fun _ _ => .error ⟨"x"⟩) 500
          ⟨emptyQuoteCache, emptyHistoryCache, 0⟩ (.notArray v)).2.1 = .err)) :=
  ⟨(C7_amended_malformed (fun _ => .error ()) (fun _ _ => .error ⟨"x"⟩) 9000
      ⟨emptyQuoteCache, emptyHistoryCache, 0⟩).1 (by decide),
   (C7_amended_malformed (fun _ => .error ()) (fun _ _ => .error ⟨"x"⟩) 500
      ⟨emptyQuoteCache, emptyHistoryCache, 0⟩).2 (by decide)⟩

/-! ### C8: the request gate -/

/-- C8: a request inside the two-second window leaves the whole state
untouched (gate timestamp included), triggers no upstream call, and for
an array request is answered purely from the current caches; a request
outside the window updates the gate timestamp to now. -/
theorem C8_request_gate (qO : List String → Except Unit (List QuoteRow))
    (cO : String → Nat → Except ChartErr ChartPayload)
    (now : Nat) (st : ServerState) (symbols : SymbolsField) :
    (now - st.lastRequestTime < MIN_REQUEST_INTERVAL →
      (handlePOST qO cO now st symbols).1 = st
      ∧ (handlePOST qO cO now st symbols).2.2.quoteCalls = []
      ∧ (handlePOST qO cO now st symbols).2.2.chartCalls = []
      ∧ ∀ syms, symbols = .array syms →
          (handlePOST qO cO now st symbols).2.1
            = .ok (assemble st.quoteCache st.historyCache syms))
    ∧ (¬ now - st.lastRequestTime < MIN_REQUEST_INTERVAL →
      (handlePOST qO cO now st symbols).1.lastRequestTime = now) := by
  constructor
  · intro h
    cases symbols with
    | missing =>
      refine ⟨?_, ?_, ?_, fun syms heq => SymbolsField.noConfusion heq⟩ <;>
        · simp only [handlePOST]
          rw [if_pos h]
    | notArray v =>
      refine ⟨?_, ?_, ?_, fun syms heq => SymbolsField.noConfusion heq⟩ <;>
        · simp only [handlePOST]
          rw [if_pos h]
    | array syms =>
      refine ⟨?_, ?_, ?_, fun syms2 heq => ?_⟩
      · simp only [handlePOST]
        rw [if_pos h]
      · simp only [handlePOST]
        rw [if_pos h]
      · simp only [handlePOST]
        rw [if_pos h]
      · injection heq with heq2
        subst heq2
        simp only [handlePOST]
        rw [if_pos h]
  · intro h
    cases symbols with
    | missing =>
      simp only [handlePOST]
      rw [if_neg h]
    | notArray v =>
      simp only [handlePOST]
      rw [if_neg h]
    | array syms =>
      cases syms with
      | nil =>
        simp only [handlePOST]
        rw [if_neg h]
      | cons s0 srest =>
        simp only [handlePOST]
        rw [if_neg h]

/-- C8 witness: a degraded request at a concrete state, and an accepted
request updating the gate timestamp. -/
theorem C8_witness :
    ((handlePOST (fun _ => .error ()) (fun _ _ => .error ⟨"x"⟩) 1500
        ⟨emptyQuoteCache, emptyHistoryCache, 400⟩ (.array ["AAPL"])).1
        = ⟨emptyQuoteCache, emptyHistoryCache, 400⟩
      ∧ (handlePOST (fun _ => .error ()) (fun _ _ => .error ⟨"x"⟩) 1500
          ⟨emptyQuoteCache, emptyHistoryCache, 400⟩ (.array ["AAPL"])).2.2.quoteCalls = []
      ∧ (handlePOST (fun _ => .error ()) (fun _ _ => .error ⟨"x"⟩) 1500
          ⟨emptyQuoteCache, emptyHistoryCache, 400⟩ (.array ["AAPL"])).2.2.chartCalls = []
      ∧ ∀ syms, (SymbolsField.array ["AAPL"]) = .array syms →
          (handlePOST (fun _ => .error ()) (fun _ _ => .error ⟨"x"⟩) 1500
            ⟨emptyQuoteCache, emptyHistoryCache, 400⟩ (.array ["AAPL"])).2.1
            = .ok (assemble emptyQuoteCache emptyHistoryCache syms))
    ∧ (handlePOST (fun _ => .error ()) (fun _ _ => .error ⟨"x"⟩) 7000
        ⟨emptyQuoteCache, emptyHistoryCache, 400⟩ (.array ["AAPL"])).1.lastRequestTime
        = 7000 :=
  ⟨(C8_request_gate (fun _ => .error ()) (fun _ _ => .error ⟨"x"⟩) 1500
      ⟨emptyQuoteCache, emptyHistoryCache, 400⟩ (.array ["AAPL"])).1 (by decide),
   (C8_request_gate (fun _ => .error ()) (fun _ _ => .error ⟨"x"⟩) 7000
      ⟨emptyQuoteCache, emptyHistoryCache, 400⟩ (.array ["AAPL"])).2 (by decide)⟩

/-! ### C9: fresh entries are never re-fetched -/

/-- C9: on an accepted request, a symbol whose quote entry is at most the
quote TTL old appears in no upstream chunk call, and a symbol whose
history entry is at most the history TTL old gets no chart fetch
cycle. -/
theorem C9_fresh_not_refetched (qO : List String → Except Unit (List QuoteRow))
    (cO : String → Nat → Except ChartErr ChartPayload)
    (now : Nat) (st : ServerState) (syms : List String) (sym : String)
    (hacc : ¬ now - st.lastRequestTime < MIN_REQUEST_INTERVAL) :
    (∀ (e : QuoteEntry) (call : List String), st.quoteCache sym = some e →
        now - e.timestamp ≤ QUOTE_TTL →
        call ∈ (handlePOST qO cO now st (.array syms)).2.2.quoteCalls → sym ∉ call)
    ∧ (∀ e : HistoryEntry, st.historyCache sym = some e →
        now - e.timestamp ≤ HISTORY_TTL →
        sym ∉ (handlePOST qO cO now st (.array syms)).2.2.chartCalls) := by
  cases syms with
  | nil =>
    constructor
    · intro e call he hf hcall
      simp only [handlePOST] at hcall
      rw [if_neg hacc] at hcall
      simp at hcall
    · intro e he hf hcall
      simp only [handlePOST] at hcall
      rw [if_neg hacc] at hcall
      simp at hcall
  | cons s0 srest =>
    constructor
    · intro e call he hf hcall hmem
      simp only [handlePOST] at hcall
      rw [if_neg hacc] at hcall
      dsimp only at hcall
      have h1 : call ∈ chunksOf10 (quotesToFetch st.quoteCache now (s0 :: srest)) :=
        runChunksList_calls_subset qO now _ _ call hcall
      have h2 : sym ∈ quotesToFetch st.quoteCache now (s0 :: srest) :=
        chunksGo_mem_sound _ _ call sym h1 hmem
      exact fresh_quote_not_fetched st.quoteCache now (s0 :: srest) sym e he hf h2
    · intro e he hf hcall
      simp only [handlePOST] at hcall
      rw [if_neg hacc] at hcall
      dsimp only at hcall
      rw [runHistories_calls] at hcall
      exact fresh_history_not_fetched st.historyCache now (s0 :: srest) sym e he hf hcall

/-- C9 witness: with a fresh AAPL quote and history entry and an uncached
second symbol, the one chunk call and the one chart cycle cover only the
uncached symbol, and AAPL appears in neither. -/
theorem C9_witness :
    ("AAPL" ∉ (["MSFT"] : List String))
    ∧ "AAPL" ∉ (handlePOST (fun _ => .error ()) (fun _ _ => .error ⟨"x"⟩) 5000
        ⟨putQuote emptyQuoteCache "AAPL" ⟨⟨1, 2⟩, 100⟩,
          putHistory emptyHistoryCache "AAPL" ⟨[⟨3⟩], 100⟩, 0⟩
        (.array ["AAPL", "MSFT"])).2.2.chartCalls :=
  ⟨(C9_fresh_not_refetched (fun _ => .error ()) (fun _ _ => .error ⟨"x"⟩) 5000
      ⟨putQuote emptyQuoteCache "AAPL" ⟨⟨1, 2⟩, 100⟩,
        putHistory emptyHistoryCache "AAPL" ⟨[⟨3⟩], 100⟩, 0⟩
      ["AAPL", "MSFT"] "AAPL" (by decide)).1 ⟨⟨1, 2⟩, 100⟩ ["MSFT"] (by decide) (by decide)
      (by decide),
   (C9_fresh_not_refetched (fun _ => .error ()) (fun _ _ => .error ⟨"x"⟩) 5000
      ⟨putQuote emptyQuoteCache "AAPL" ⟨⟨1, 2⟩, 100⟩,
        putHistory emptyHistoryCache "AAPL" ⟨[⟨3⟩], 100⟩, 0⟩
      ["AAPL", "MSFT"] "AAPL" (by decide)).2 ⟨[⟨3⟩], 100⟩ (by decide) (by decide)⟩

end MarketRoute
